import Mathlib

/-!
Shallow embedding of the path-based trie database core of the repository
(`triedb/pathdb/buffer.go`, `triedb/pathdb/disklayer.go`) and of the trie
prefetcher (`core/state` trie prefetcher), together with proofs settling
the frozen claims about them.

Byte strings (`[]byte`) are modelled as `List Nat`, hashes (`common.Hash`)
as `Nat` with `0` playing the role of the empty hash, and Go maps as
association lists with first-match lookup.
-/

/-- Byte string (`[]byte`). -/
abbrev Blob := List Nat

/-- Trie node path. -/
abbrev NPath := List Nat

/-- First-match association-list lookup: the model of a Go map read. -/
def alookup {α β : Type} [DecidableEq α] : List (α × β) → α → Option β
  | [], _ => none
  | (k, v) :: t, a => if k = a then some v else alookup t a

/-- Remove every binding of a key from an association list. -/
def adel {α β : Type} [DecidableEq α] : List (α × β) → α → List (α × β)
  | [], _ => []
  | (k, v) :: t, a => if k = a then adel t a else (k, v) :: adel t a

/-- Insert or overwrite a key in an association list: the model of a Go map
write. -/
def aput {α β : Type} [DecidableEq α] (l : List (α × β)) (k : α) (v : β) :
    List (α × β) :=
  (k, v) :: adel l k

theorem alookup_adel_self {α β : Type} [DecidableEq α] (l : List (α × β)) (k : α) :
    alookup (adel l k) k = none := by
  induction l with
  | nil => rfl
  | cons e t ih =>
    obtain ⟨k0, v0⟩ := e
    by_cases h : k0 = k
    · simpa [adel, h] using ih
    · simp [adel, h, alookup, ih]

theorem alookup_adel_ne {α β : Type} [DecidableEq α] (l : List (α × β)) {k k' : α}
    (h : k' ≠ k) : alookup (adel l k) k' = alookup l k' := by
  induction l with
  | nil => rfl
  | cons e t ih =>
    obtain ⟨k0, v0⟩ := e
    by_cases hk : k0 = k
    · subst hk
      simp [adel, alookup, Ne.symm h, ih]
    · by_cases hk' : k0 = k'
      · simp [adel, hk, alookup, hk', h]
      · simp [adel, hk, alookup, hk', ih]

theorem alookup_aput_self {α β : Type} [DecidableEq α] (l : List (α × β)) (k : α)
    (v : β) : alookup (aput l k v) k = some v := by
  simp [aput, alookup]

theorem alookup_aput_ne {α β : Type} [DecidableEq α] (l : List (α × β)) {k k' : α}
    (v : β) (h : k' ≠ k) : alookup (aput l k v) k' = alookup l k' := by
  simp [aput, alookup, Ne.symm h, alookup_adel_ne l h]

/-- A trie node as held by the node sets: blob plus its hash
(`trienode.Node`); an empty blob is a deletion marker. -/
structure TrieNode where
  blob : Blob
  nhash : Nat
deriving DecidableEq

/-- The slice of the key-value store the analysed code touches: account-trie
node keys, storage-trie node keys, the persistent state id scalar, and the
root-to-state-id lookup table (`rawdb` schema). -/
structure KVStore where
  accountNodes : List (NPath × Blob)
  storageNodes : List ((Nat × NPath) × Blob)
  persistentStateID : Nat
  stateIDs : List (Nat × Nat)
deriving DecidableEq

/-- Model of `rawdb.ReadAccountTrieNode`: missing keys read as the empty blob. -/
def readAccountTrieNode (db : KVStore) (p : NPath) : Blob :=
  (alookup db.accountNodes p).getD []

/-- Model of `rawdb.ReadStorageTrieNode`. -/
def readStorageTrieNode (db : KVStore) (o : Nat) (p : NPath) : Blob :=
  (alookup db.storageNodes (o, p)).getD []

/-- Dispatch on the owner as `diskLayer.node` does: the zero owner denotes
the account trie. -/
def readTrieNode (db : KVStore) (o : Nat) (p : NPath) : Blob :=
  if o = 0 then readAccountTrieNode db p else readStorageTrieNode db o p

/-- Model of `rawdb.WriteStateID` applied directly to the store. -/
def writeStateID (db : KVStore) (root id : Nat) : KVStore :=
  { db with stateIDs := aput db.stateIDs root id }

/-- One deferred write of a key-value batch. -/
inductive WriteOp where
  | putAccountNode (path : NPath) (blob : Blob)
  | delAccountNode (path : NPath)
  | putStorageNode (owner : Nat) (path : NPath) (blob : Blob)
  | delStorageNode (owner : Nat) (path : NPath)
  | putPersistentStateID (id : Nat)
  | putStateID (root id : Nat)
deriving DecidableEq

/-- Apply a single batched write to the store. -/
def applyOp (db : KVStore) : WriteOp → KVStore
  | .putAccountNode p b => { db with accountNodes := aput db.accountNodes p b }
  | .delAccountNode p => { db with accountNodes := adel db.accountNodes p }
  | .putStorageNode o p b => { db with storageNodes := aput db.storageNodes (o, p) b }
  | .delStorageNode o p => { db with storageNodes := adel db.storageNodes (o, p) }
  | .putPersistentStateID i => { db with persistentStateID := i }
  | .putStateID r i => { db with stateIDs := aput db.stateIDs r i }

/-- Model of `batch.Write()`: all writes of a batch land atomically, in order. -/
def applyBatch (db : KVStore) (batch : List WriteOp) : KVStore :=
  batch.foldl applyOp db

/-- The clean node cache (`fastcache`), keyed like `nodeCacheKey(owner, path)`. -/
abbrev Cache := List ((Nat × NPath) × Blob)

/-- Model of `fastcache.Get`: a missing key reads as the empty blob. -/
def cacheGet (c : Cache) (k : Nat × NPath) : Blob :=
  (alookup c k).getD []

/-- Model of `fastcache.Set`. -/
def cacheSet (c : Cache) (k : Nat × NPath) (b : Blob) : Cache :=
  aput c k b

/-- Model of `fastcache.Del`. -/
def cacheDel (c : Cache) (k : Nat × NPath) : Cache :=
  adel c k

/-- Modelled from the spec: the container file `triedb/pathdb/nodes.go` is
not among the analysed sources. A node set maps `(trie-owner, node-path)` to
a trie node; owner `0` models the empty hash, i.e. the account trie. -/
structure NodeSet where
  entries : List ((Nat × NPath) × TrieNode)
deriving DecidableEq

/-- Modelled from the spec: node-set lookup. -/
def NodeSet.node (s : NodeSet) (owner : Nat) (path : NPath) : Option TrieNode :=
  alookup s.entries (owner, path)

/-- Modelled from the spec: merge a newer node set on top, the newer entry
overwriting the older one for the same key. -/
def NodeSet.merge (s other : NodeSet) : NodeSet :=
  ⟨other.entries.foldl (fun acc e => aput acc e.1 e.2) s.entries⟩

/-- Modelled from the spec: `size` tracks the sum of `len(path)+len(blob)`
over the entries. -/
def NodeSet.size (s : NodeSet) : Nat :=
  s.entries.foldl (fun a e => a + e.1.2.length + e.2.blob.length) 0

/-- Modelled from the spec: drop all aggregated nodes. -/
def NodeSet.reset (_ : NodeSet) : NodeSet := ⟨[]⟩

/-- Modelled from the spec: `nodeSet.revertTo` merges each reverted node into
the set with the supplied reverse value (the database argument is consulted
by the source only for a consistency check of nodes the buffer never held). -/
def NodeSet.revertTo (s : NodeSet) (_ : KVStore)
    (rnodes : List ((Nat × NPath) × TrieNode)) : NodeSet :=
  ⟨rnodes.foldl (fun acc e => aput acc e.1 e.2) s.entries⟩

/-- The batched write a single node delta compiles to inside
`nodeSet.write`: an empty blob is a deletion marker, the zero owner denotes
the account trie. -/
def nodeOpFor (k : Nat × NPath) (n : TrieNode) : WriteOp :=
  if n.blob = [] then
    (if k.1 = 0 then WriteOp.delAccountNode k.2 else WriteOp.delStorageNode k.1 k.2)
  else
    (if k.1 = 0 then WriteOp.putAccountNode k.2 n.blob
     else WriteOp.putStorageNode k.1 k.2 n.blob)

/-- Modelled from the spec: `nodeSet.write` turns every node delta of the
set into one entry of a single write batch. -/
def nodeWriteOps (l : List ((Nat × NPath) × TrieNode)) : List WriteOp :=
  l.map fun e => nodeOpFor e.1 e.2

/-- Modelled from the spec: the clean-cache side of `nodeSet.write`: deleted
nodes are evicted, written nodes refresh the cache. A `none` cache models a
nil `fastcache` pointer. -/
def nodeCacheWrite (cache : Option Cache)
    (l : List ((Nat × NPath) × TrieNode)) : Option Cache :=
  match cache with
  | none => none
  | some c =>
      some (l.foldl (fun c e => if e.2.blob = [] then cacheDel c e.1 else cacheSet c e.1 e.2.blob) c)

/-- Modelled from the spec: the container file `triedb/pathdb/states.go` is
not among the analysed sources. A state set maps account address hashes to
account blobs and `(account hash, slot hash)` pairs to slot blobs. -/
structure StateSet where
  accountData : List (Nat × Blob)
  storageData : List ((Nat × Nat) × Blob)
deriving DecidableEq

/-- Modelled from the spec: flat account lookup. -/
def StateSet.account (s : StateSet) (h : Nat) : Option Blob :=
  alookup s.accountData h

/-- Modelled from the spec: flat storage-slot lookup. -/
def StateSet.storage (s : StateSet) (addrHash storageHash : Nat) : Option Blob :=
  alookup s.storageData (addrHash, storageHash)

/-- Modelled from the spec: merge a newer state set on top. -/
def StateSet.merge (s other : StateSet) : StateSet :=
  ⟨other.accountData.foldl (fun acc e => aput acc e.1 e.2) s.accountData,
   other.storageData.foldl (fun acc e => aput acc e.1 e.2) s.storageData⟩

/-- Modelled from the spec: approximate memory size of the flat states. -/
def StateSet.size (s : StateSet) : Nat :=
  s.accountData.foldl (fun a e => a + 32 + e.2.length) 0 +
    s.storageData.foldl (fun a e => a + 64 + e.2.length) 0

/-- Modelled from the spec: drop all aggregated flat states. -/
def StateSet.reset (_ : StateSet) : StateSet := ⟨[], []⟩

/-- Modelled from the spec: `stateSet.revertTo` overwrites the aggregated
flat states with the supplied reverse images. -/
def StateSet.revertTo (s : StateSet) (raccounts : List (Nat × Blob))
    (rstorages : List ((Nat × Nat) × Blob)) : StateSet :=
  ⟨raccounts.foldl (fun acc e => aput acc e.1 e.2) s.accountData,
   rstorages.foldl (fun acc e => aput acc e.1 e.2) s.storageData⟩

/-- The error taxonomy of the analysed code (`errSnapshotStale`,
`errStateUnrecoverable`, `errUnexpectedHistory`, the `not supported` error of
flat disk-layer reads, and the state-id alignment error of `buffer.flush`). -/
inductive DBErr where
  | snapshotStale
  | stateUnrecoverable
  | unexpectedHistory
  | notSupported
  | alignment (layers head id : Nat)
deriving DecidableEq

/-- The write-back buffer (`buffer` in buffer.go): number of aggregated diff
layers, memory limit, aggregated trie nodes and flat states. -/
structure Buffer where
  layers : Nat
  limit : Nat
  nodes : NodeSet
  states : StateSet
deriving DecidableEq

/-- Model of `buffer.account`. -/
def Buffer.account (b : Buffer) (h : Nat) : Option Blob :=
  b.states.account h

/-- Model of `buffer.storage`. -/
def Buffer.storage (b : Buffer) (addrHash storageHash : Nat) : Option Blob :=
  b.states.storage addrHash storageHash

/-- Model of `buffer.node`. -/
def Buffer.node (b : Buffer) (owner : Nat) (path : NPath) : Option TrieNode :=
  b.nodes.node owner path

/-- Model of `buffer.size`. -/
def Buffer.size (b : Buffer) : Nat :=
  b.states.size + b.nodes.size

/-- Model of `buffer.full`. -/
def Buffer.full (b : Buffer) : Bool :=
  b.limit < b.size

/-- Model of `buffer.empty`. -/
def Buffer.empty (b : Buffer) : Bool :=
  b.layers == 0

/-- Model of `buffer.reset`. -/
def Buffer.reset (b : Buffer) : Buffer :=
  { b with layers := 0, nodes := b.nodes.reset, states := b.states.reset }

/-- Model of `buffer.commit`: merge the bottom-most diff layer's sets, growing the
layer counter. -/
def Buffer.commit (b : Buffer) (nodes : NodeSet) (states : StateSet) : Buffer :=
  { b with layers := b.layers + 1,
           nodes := b.nodes.merge nodes,
           states := b.states.merge states }

/-- Model of `buffer.revertTo`: undo the most recent commit using the supplied
reverse sets. -/
def Buffer.revertTo (b : Buffer) (db : KVStore)
    (rnodes : List ((Nat × NPath) × TrieNode))
    (raccounts : List (Nat × Blob))
    (rstorages : List ((Nat × Nat) × Blob)) : Except DBErr Buffer :=
  if b.layers = 0 then .error .stateUnrecoverable
  else if b.layers - 1 = 0 then .ok b.reset
  else
    .ok { b with
      layers := b.layers - 1,
      nodes := b.nodes.revertTo db rnodes,
      states :=
        if b.states.accountData ≠ [] ∨ b.states.storageData ≠ [] then
          b.states.revertTo raccounts rstorages
        else b.states }

/-- Model of `buffer.flush`: a no-op unless forced or full; otherwise check the
state-id alignment, build one batch of every node delta plus the new
persistent state id, write it atomically, refresh the clean cache and reset
the buffer. The freezer is only synced here, which the model treats as a
no-op. -/
def Buffer.flush (b : Buffer) (db : KVStore) (cache : Option Cache)
    (id : Nat) (force : Bool) : Except DBErr (Buffer × KVStore × Option Cache) :=
  if b.full = false ∧ force = false then .ok (b, db, cache)
  else
    let head := db.persistentStateID
    if head + b.layers ≠ id then .error (.alignment b.layers head id)
    else
      let batch := nodeWriteOps b.nodes.entries ++ [WriteOp.putPersistentStateID id]
      .ok (b.reset, applyBatch db batch, nodeCacheWrite cache b.nodes.entries)

/-- Modelled from the spec: cryptographic hashing is an external opaque
primitive (`crypto.HashData` over Keccak); any fixed computable stand-in is
adequate since no claim constrains hash values. -/
def keccak (b : Blob) : Nat :=
  b.foldl (fun a x => a * 263 + x + 1) 1

/-- The location tag a disk-layer node read reports (`nodeLoc`). -/
inductive NodeLoc where
  | dirtyCache
  | cleanCache
  | diskLayer
deriving DecidableEq

/-- The disk layer (`diskLayer`): immutable root and state id, the clean
node cache (`none` models a nil cache), the write-back buffer and the stale
flag. -/
structure DiskLayer where
  root : Nat
  id : Nat
  stale : Bool
  cnodes : Option Cache
  buffer : Buffer
deriving DecidableEq

/-- The `Database` fields the analysed code touches: the key-value store,
the freezer (presence flag and tail id; the record payloads play no role in
the claims), and the relevant configuration knobs. -/
structure Database where
  diskdb : KVStore
  hasFreezer : Bool
  freezerTail : Nat
  stateHistoryLimit : Nat
  cleanCacheSize : Nat
deriving DecidableEq

/-- Model of `newDiskLayer`: initialize a clean cache when none is inherited and the
configured allowance is not zero. -/
def newDiskLayer (db : Database) (root id : Nat) (cache : Option Cache)
    (buf : Buffer) : DiskLayer :=
  let cache :=
    match cache with
    | none => if db.cleanCacheSize ≠ 0 then some [] else none
    | some c => some c
  { root := root, id := id, stale := false, cnodes := cache, buffer := buf }

/-- Model of `diskLayer.node`: fail when stale, else consult the dirty buffer, then
the clean cache, then the key-value store, back-filling the clean cache on a
successful disk read. Returns the blob, its hash, the hit location and the
(possibly back-filled) clean cache. -/
def DiskLayer.node (dl : DiskLayer) (db : KVStore) (owner : Nat) (path : NPath)
    (_ : Nat) (_ : Nat) :
    Except DBErr (Blob × Nat × NodeLoc × Option Cache) :=
  if dl.stale then .error .snapshotStale
  else
    match dl.buffer.node owner path with
    | some n => .ok (n.blob, n.nhash, .dirtyCache, dl.cnodes)
    | none =>
      match dl.cnodes with
      | some c =>
        let cb := cacheGet c (owner, path)
        if cb ≠ [] then .ok (cb, keccak cb, .cleanCache, some c)
        else
          let blob := readTrieNode db owner path
          let c' := if blob ≠ [] then cacheSet c (owner, path) blob else c
          .ok (blob, keccak blob, .diskLayer, some c')
      | none =>
        let blob := readTrieNode db owner path
        .ok (blob, keccak blob, .diskLayer, none)

/-- Model of `diskLayer.account`: fail when stale, answer from the dirty buffer, and
otherwise fail with the `not supported` error — persistent flat-state
retrieval is unimplemented. -/
def DiskLayer.account (dl : DiskLayer) (hash : Nat) (_ : Nat) :
    Except DBErr Blob :=
  if dl.stale then .error .snapshotStale
  else
    match dl.buffer.account hash with
    | some blob => .ok blob
    | none => .error .notSupported

/-- Model of `diskLayer.storage`: same shape as `diskLayer.account`. -/
def DiskLayer.storage (dl : DiskLayer) (accountHash storageHash : Nat) (_ : Nat) :
    Except DBErr Blob :=
  if dl.stale then .error .snapshotStale
  else
    match dl.buffer.storage accountHash storageHash with
    | some blob => .ok blob
    | none => .error .notSupported

/-- Result of an operation that can also die with a Go `panic`. -/
inductive Outcome (α : Type) where
  | ok (a : α)
  | err (e : DBErr)
  | panicked
deriving DecidableEq

/-- Whether an outcome is a panic. -/
def Outcome.isPanicked {α : Type} : Outcome α → Bool
  | .panicked => true
  | _ => false

/-- Model of `diskLayer.markStale`: panics when the layer is already stale — the
"two children committing onto the same base" detector. -/
def DiskLayer.markStale (dl : DiskLayer) : Outcome DiskLayer :=
  if dl.stale then .panicked else .ok { dl with stale := true }

/-- The bottom-most diff layer as `diskLayer.commit` consumes it: root,
state id, block number, and its node and flat-state sets. -/
structure DiffLayer where
  root : Nat
  stateID : Nat
  block : Nat
  nodes : NodeSet
  states : StateSet
deriving DecidableEq

/-- The tail of `diskLayer.commit` after the receiver has been marked stale:
write the state history (modelled by the freezer bookkeeping: `hist = some
oldest` models `overflow = true`), store the root-to-id lookups, force the
flush when the oldest retained history would overtake the persisted state,
merge the bottom diff into the buffer, flush, and assemble the successor
disk layer, pruning the history tail on overflow. -/
def DiskLayer.commitTail (dl : DiskLayer) (db : Database) (bottom : DiffLayer)
    (force : Bool) : Outcome (DiskLayer × Database) :=
  let hist :=
    if db.hasFreezer = true ∧ db.stateHistoryLimit ≠ 0 ∧
        db.stateHistoryLimit < bottom.stateID - db.freezerTail then
      some (bottom.stateID - db.stateHistoryLimit + 1)
    else none
  let kv1 := if dl.id = 0 then writeStateID db.diskdb dl.root 0 else db.diskdb
  let kv2 := writeStateID kv1 bottom.root bottom.stateID
  let force2 :=
    if force = false ∧ kv2.persistentStateID < hist.getD 0 then true else force
  let combined := dl.buffer.commit bottom.nodes bottom.states
  match Buffer.flush combined kv2 dl.cnodes bottom.stateID force2 with
  | .error e => .err e
  | .ok (buf2, kv3, cache2) =>
    let ndl := newDiskLayer db bottom.root bottom.stateID cache2 buf2
    let db2 := { db with diskdb := kv3 }
    let db3 :=
      match hist with
      | some oldest => { db2 with freezerTail := oldest - 1 }
      | none => db2
    .ok (ndl, db3)

/-- Model of `diskLayer.commit`: the receiver is marked stale unconditionally —
`dl.stale = true` with no already-stale check — before the bottom diff is
merged on top. The first component is the receiver after the mutation, the
second the constructed successor (or a failure). -/
def DiskLayer.commit (dl : DiskLayer) (db : Database) (bottom : DiffLayer)
    (force : Bool) : DiskLayer × Outcome (DiskLayer × Database) :=
  ({ dl with stale := true }, DiskLayer.commitTail dl db bottom force)

/-- One state-history record as `diskLayer.revert` consumes it. The `nodes`
field carries the forward node changes that `apply` (history.go, not among
the analysed sources) derives from `accounts`/`storages` plus the current
tries. -/
structure History where
  parent : Nat
  root : Nat
  accounts : List (Nat × Blob)
  storages : List ((Nat × Nat) × Blob)
  nodes : List ((Nat × NPath) × TrieNode)
deriving DecidableEq

/-- Modelled from the spec: `apply` computes the forward node changes needed
to restore the previous trie roots from the history plus the current trie;
the trie manipulation itself is external to the analysed sources, so the
model reads the precomputed changes off the record. -/
def applyHistory (_ : Database) (h : History) :
    List ((Nat × NPath) × TrieNode) :=
  h.nodes

/-- Model of `diskLayer.revert`: validate the history root, refuse state id zero,
mark the receiver stale, then either undo the buffer's most recent commit
(non-empty buffer) or write the forward changes and the decremented
persistent state id directly (empty buffer); return the recovered disk
layer and the resulting key-value store. -/
def DiskLayer.revert (dl : DiskLayer) (db : Database) (h : History) :
    Except DBErr (DiskLayer × KVStore) :=
  if h.root ≠ dl.root then .error .unexpectedHistory
  else if dl.id = 0 then .error .stateUnrecoverable
  else
    let nodes := applyHistory db h
    if dl.buffer.empty = false then
      match dl.buffer.revertTo db.diskdb nodes h.accounts h.storages with
      | .error e => .error e
      | .ok buf2 =>
        .ok (newDiskLayer db h.parent (dl.id - 1) dl.cnodes buf2, db.diskdb)
    else
      let batch := nodeWriteOps nodes ++ [WriteOp.putPersistentStateID (dl.id - 1)]
      let cache2 := nodeCacheWrite dl.cnodes nodes
      .ok (newDiskLayer db h.parent (dl.id - 1) cache2 dl.buffer,
           applyBatch db.diskdb batch)

/-- Model of `common.AddressLength`. -/
def addressLength : Nat := 20

/-- Model of `parallelTriePrefetchThreshold`. -/
def parallelTriePrefetchThreshold : Nat := 10

/-- Model of `parallelTriePrefetchCapacity`. -/
def parallelTriePrefetchCapacity : Nat := 20

/-- A subfetcher's claim-relevant state: trie identity, task queue,
deduplication set, duplicate counter, consumer-used keys and the pending
counter. -/
structure Subfetcher where
  owner : Nat
  root : Nat
  addr : Nat
  tasks : List (List Nat)
  seen : List (List Nat)
  dups : Nat
  usedKeys : List (List Nat)
  pendingSize : Nat
deriving DecidableEq

/-- A backend trie read issued while prefetching. -/
inductive ReadEvent where
  | getAccount (key : List Nat)
  | getStorage (addr : Nat) (key : List Nat)
deriving DecidableEq

/-- The per-task body of `subfetcher.loop`: an already-seen key only bumps
`dups`; an unseen key issues exactly one backend read (`GetAccount` for
address-length keys, `GetStorage` otherwise) and is recorded as seen; the
pending counter drops either way. -/
def processTask (sf : Subfetcher) (task : List Nat) :
    Subfetcher × List ReadEvent :=
  if task ∈ sf.seen then
    ({ sf with dups := sf.dups + 1, pendingSize := sf.pendingSize - 1 }, [])
  else
    ({ sf with seen := task :: sf.seen, pendingSize := sf.pendingSize - 1 },
     [if task.length = addressLength then ReadEvent.getAccount task
      else ReadEvent.getStorage sf.addr task])

/-- Model of `triePrefetcher.used`: the consumer-used address and slot keys are
appended to the fetcher's used list with no filtering against `seen`. -/
def recordUsed (sf : Subfetcher) (usedAddr usedSlot : List (List Nat)) :
    Subfetcher :=
  { sf with usedKeys := sf.usedKeys ++ usedAddr ++ usedSlot }

/-- Model of `subfetcher.schedule`: append the keys to the task queue and grow the
pending counter. -/
def subSchedule (sf : Subfetcher) (keys : List (List Nat)) : Subfetcher :=
  { sf with pendingSize := sf.pendingSize + keys.length,
            tasks := sf.tasks ++ keys }

/-- Model of `newSubfetcher` for a parallel child: same trie identity as the parent,
fresh queue and counters. -/
def newChildFetcher (sf : Subfetcher) : Subfetcher :=
  { owner := sf.owner, root := sf.root, addr := sf.addr,
    tasks := [], seen := [], dups := 0, usedKeys := [], pendingSize := 0 }

/-- The feeding loop of `subfetcher.scheduleParallel`: visit the existing
children round-robin starting at `len(keys) % childrenNum`, skip full ones,
feed a hungry child up to its remaining capacity, and stop early once the
new keys are exhausted. Returns the updated children, the index of the
first unconsumed key and whether everything was consumed. -/
def feedLoop (keys : List (List Nat)) :
    Nat → List Subfetcher → Nat → Nat → List Subfetcher × Nat × Bool
  | 0, children, _, kI => (children, kI, false)
  | i + 1, children, cI, kI =>
    match children.get? cI with
    | none => (children, kI, false)
    | some c =>
      let cI' := (cI + 1) % children.length
      if parallelTriePrefetchCapacity ≤ c.pendingSize then
        feedLoop keys i children cI' kI
      else
        let feedNum := parallelTriePrefetchCapacity - c.pendingSize
        if keys.length ≤ kI + feedNum then
          (children.set cI (subSchedule c (keys.drop kI)), keys.length, true)
        else
          feedLoop keys i
            (children.set cI (subSchedule c ((keys.drop kI).take feedNum)))
            cI' (kI + feedNum)

/-- The spawning loop of `subfetcher.scheduleParallel`, written with an
explicit fuel so the definition is structurally recursive; every recursive
step drops `parallelTriePrefetchCapacity` keys, so any fuel of at least
`keys.length` behaves identically. -/
def chunkSpawnFuel (sf : Subfetcher) : Nat → List (List Nat) → List Subfetcher
  | 0, _ => []
  | fuel + 1, keys =>
    if keys = [] then []
    else if keys.length ≤ parallelTriePrefetchCapacity then
      [subSchedule (newChildFetcher sf) keys]
    else
      subSchedule (newChildFetcher sf) (keys.take parallelTriePrefetchCapacity)
        :: chunkSpawnFuel sf fuel (keys.drop parallelTriePrefetchCapacity)

/-- The spawning loop of `subfetcher.scheduleParallel`: cut the leftover
keys into chunks of at most `parallelTriePrefetchCapacity` and create one
child per chunk. -/
def chunkSpawn (sf : Subfetcher) (keys : List (List Nat)) : List Subfetcher :=
  chunkSpawnFuel sf keys.length keys

/-- Model of `subfetcher.scheduleParallel`: feed the existing children first (the
early return inside the feeding loop reports that all keys were consumed),
then spawn new children for the keys nobody consumed. -/
def scheduleParallel (sf : Subfetcher) (children : List Subfetcher)
    (keys : List (List Nat)) : List Subfetcher :=
  if 0 < children.length then
    let r := feedLoop keys children.length children (keys.length % children.length) 0
    if r.2.2 = true then r.1
    else r.1 ++ chunkSpawn sf (keys.drop r.2.1)
  else children ++ chunkSpawn sf keys

/-- The prefetch-message arm of `triePrefetcher.mainLoop` for an existing
live fetcher: schedule the keys, then run the parallel scheduler only when
the pending counter exceeds `parallelTriePrefetchThreshold`. -/
def handleMsg (sf : Subfetcher) (children : List Subfetcher)
    (keys : List (List Nat)) : Subfetcher × List Subfetcher :=
  let sf2 := subSchedule sf keys
  if parallelTriePrefetchThreshold < sf2.pendingSize then
    (sf2, scheduleParallel sf2 children keys)
  else (sf2, children)

/-- Ceiling division, for the child-count bound. -/
def ceilDiv (a b : Nat) : Nat := (a + b - 1) / b

/-- Whether an `Except` computation succeeded. -/
def exceptIsOk {ε α : Type} : Except ε α → Bool
  | .ok _ => true
  | .error _ => false

/-- Shared fixture: an empty buffer with a roomy limit. -/
def bufW : Buffer := { layers := 0, limit := 1000, nodes := ⟨[]⟩, states := ⟨[], []⟩ }

/-- Shared fixture: an empty key-value store. -/
def kvW : KVStore :=
  { accountNodes := [], storageNodes := [], persistentStateID := 0, stateIDs := [] }

/-- C1: for every disk layer with the stale flag set, `node`, `account` and
`storage` all fail with the snapshot-stale error, returning no value. -/
theorem C1_stale_reads_fail (dl : DiskLayer) (db : KVStore) (owner : Nat)
    (path : NPath) (hash depth acct a s : Nat) (hst : dl.stale = true) :
    dl.node db owner path hash depth = .error .snapshotStale ∧
    dl.account acct depth = .error .snapshotStale ∧
    dl.storage a s depth = .error .snapshotStale := by
  refine ⟨?_, ?_, ?_⟩ <;>
    simp [DiskLayer.node, DiskLayer.account, DiskLayer.storage, hst]

def dlW1 : DiskLayer :=
  { root := 1, id := 1, stale := true, cnodes := none, buffer := bufW }

/-- Witness for C1 at a concrete stale disk layer. -/
theorem C1_witness :
    dlW1.stale = true ∧
      DiskLayer.node dlW1 kvW 0 [1] 2 3 = .error .snapshotStale ∧
      DiskLayer.account dlW1 4 0 = .error .snapshotStale ∧
      DiskLayer.storage dlW1 4 5 0 = .error .snapshotStale :=
  ⟨rfl, C1_stale_reads_fail dlW1 kvW 0 [1] 2 3 4 4 5 rfl⟩

/-- C10: on a non-stale disk layer the flat-state reads answer from the
dirty buffer only, and fail with the `not supported` error exactly when the
key is absent there — they never fall back to the clean cache or the
key-value store (neither is even consulted by the source). -/
theorem C10_flat_reads_buffer_only (dl : DiskLayer) (a s depth : Nat)
    (hst : dl.stale = false) :
    (dl.buffer.account a = none → dl.account a depth = .error .notSupported) ∧
    (∀ blob, dl.buffer.account a = some blob → dl.account a depth = .ok blob) ∧
    (dl.buffer.storage a s = none → dl.storage a s depth = .error .notSupported) ∧
    (∀ blob, dl.buffer.storage a s = some blob → dl.storage a s depth = .ok blob) := by
  refine ⟨fun h => ?_, fun blob h => ?_, fun h => ?_, fun blob h => ?_⟩ <;>
    simp [DiskLayer.account, DiskLayer.storage, hst, h]

def bufW10 : Buffer :=
  { layers := 1, limit := 1000, nodes := ⟨[]⟩, states := ⟨[(6, [7])], []⟩ }

def dlW10 : DiskLayer :=
  { root := 1, id := 1, stale := false, cnodes := none, buffer := bufW10 }

/-- Witness for C10: a buffered account is served, an unbuffered one fails. -/
theorem C10_witness :
    DiskLayer.account dlW10 5 0 = .error .notSupported ∧
      DiskLayer.account dlW10 6 0 = .ok [7] :=
  ⟨(C10_flat_reads_buffer_only dlW10 5 0 0 rfl).1 rfl,
   (C10_flat_reads_buffer_only dlW10 6 0 0 rfl).2.1 [7] rfl⟩

def dlC7 : DiskLayer :=
  { root := 1, id := 1, stale := false, cnodes := some [], buffer := bufW }

/-- C7 counterexample: the claim quantifies over *every* read, but a flat
account read on a non-stale layer whose buffer misses the key returns the
`not supported` error instead of consulting the clean cache or the
key-value store (the source reads neither for flat state). -/
theorem C7_counterexample :
    dlC7.stale = false ∧ Buffer.account dlC7.buffer 5 = none ∧
      DiskLayer.account dlC7 5 0 = .error .notSupported :=
  ⟨rfl, rfl, rfl⟩

/-- C7 (amended): for every *trie-node* read on a non-stale disk layer the
lookup consults the dirty buffer first, then the clean cache, then the
key-value store, and a successful disk read back-fills the clean cache with
the returned blob; flat-state reads consult only the dirty buffer. -/
theorem C7_node_read_tiering (dl : DiskLayer) (db : KVStore) (owner : Nat)
    (path : NPath) (hash depth : Nat) (hst : dl.stale = false) :
    (∀ n, dl.buffer.node owner path = some n →
      dl.node db owner path hash depth =
        .ok (n.blob, n.nhash, .dirtyCache, dl.cnodes)) ∧
    (dl.buffer.node owner path = none → ∀ c, dl.cnodes = some c →
      (cacheGet c (owner, path) ≠ [] →
        dl.node db owner path hash depth =
          .ok (cacheGet c (owner, path), keccak (cacheGet c (owner, path)),
               .cleanCache, some c)) ∧
      (cacheGet c (owner, path) = [] →
        dl.node db owner path hash depth =
          .ok (readTrieNode db owner path, keccak (readTrieNode db owner path),
               .diskLayer,
               some (if readTrieNode db owner path ≠ [] then
                       cacheSet c (owner, path) (readTrieNode db owner path)
                     else c)) ∧
        (readTrieNode db owner path ≠ [] →
          cacheGet (cacheSet c (owner, path) (readTrieNode db owner path))
              (owner, path) = readTrieNode db owner path))) := by
  constructor
  · intro n hn
    simp [DiskLayer.node, hst, hn]
  · intro hn c hc
    refine ⟨fun hcb => ?_, fun hcb => ⟨?_, fun hb => ?_⟩⟩
    · simp [DiskLayer.node, hst, hn, hc, hcb]
    · simp [DiskLayer.node, hst, hn, hc, hcb]
    · simp [cacheGet, cacheSet, alookup_aput_self]

def cW7 : Cache := [((0, [2]), [9])]

def dlW7 : DiskLayer :=
  { root := 1, id := 1, stale := false, cnodes := some cW7, buffer := bufW }

/-- Witness for the amended C7: a clean-cache hit at a concrete input. -/
theorem C7_witness :
    DiskLayer.node dlW7 kvW 0 [2] 0 0 = .ok ([9], keccak [9], .cleanCache, some cW7) := by
  have h := ((C7_node_read_tiering dlW7 kvW 0 [2] 0 0 rfl).2 rfl cW7 rfl).1 (by decide)
  exact h

/-- C4: `buffer.flush` is a no-op returning no error and performing no
writes when the buffer is not full and force is unset; otherwise, a
misaligned persisted state id (`head + layers ≠ id`) fails with the
alignment error before any write is built. -/
theorem C4_flush_gate (b : Buffer) (db : KVStore) (cache : Option Cache)
    (id : Nat) (force : Bool) :
    (b.full = false → force = false → b.flush db cache id force = .ok (b, db, cache)) ∧
    (db.persistentStateID + b.layers ≠ id → (b.full = true ∨ force = true) →
      b.flush db cache id force = .error (.alignment b.layers db.persistentStateID id)) := by
  constructor
  · intro h1 h2
    simp [Buffer.flush, h1, h2]
  · intro h1 h2
    have hcond : ¬(b.full = false ∧ force = false) := by
      rcases h2 with h | h <;> simp [h]
    simp [Buffer.flush, hcond, h1]

/-- Witness for C4: the empty buffer is skipped unforced, and a forced
flush with a misaligned id fails. -/
theorem C4_witness :
    Buffer.flush bufW kvW none 5 false = .ok (bufW, kvW, none) ∧
      Buffer.flush bufW kvW none 5 true = .error (.alignment 0 0 5) :=
  ⟨(C4_flush_gate bufW kvW none 5 false).1 rfl rfl,
   (C4_flush_gate bufW kvW none 5 true).2 (by decide) (Or.inr rfl)⟩

theorem alookup_foldl_aput_not_mem {α β : Type} [DecidableEq α]
    (l : List (α × β)) (acc : List (α × β)) {k : α}
    (h : k ∉ l.map Prod.fst) :
    alookup (l.foldl (fun acc e => aput acc e.1 e.2) acc) k = alookup acc k := by
  induction l generalizing acc with
  | nil => rfl
  | cons e t ih =>
    simp only [List.map_cons, List.mem_cons] at h
    push_neg at h
    simp only [List.foldl_cons]
    rw [ih (aput acc e.1 e.2) h.2]
    exact alookup_aput_ne acc e.2 h.1

theorem alookup_foldl_aput_mem {α β : Type} [DecidableEq α]
    (l : List (α × β)) (acc : List (α × β)) {k : α} {v : β}
    (hnd : (l.map Prod.fst).Nodup) (h : alookup l k = some v) :
    alookup (l.foldl (fun acc e => aput acc e.1 e.2) acc) k = some v := by
  induction l generalizing acc with
  | nil => simp [alookup] at h
  | cons e t ih =>
    obtain ⟨k0, v0⟩ := e
    simp only [List.map_cons, List.nodup_cons] at hnd
    by_cases hk : k0 = k
    · subst hk
      have hv : v0 = v := by simpa [alookup] using h
      subst hv
      simp only [List.foldl_cons]
      rw [alookup_foldl_aput_not_mem t (aput acc k0 v0) hnd.1]
      exact alookup_aput_self acc k0 v0
    · rw [alookup, if_neg hk] at h
      simp only [List.foldl_cons]
      exact ih (aput acc k0 v0) hnd.2 h

/-- C5: `buffer.revertTo` fails with the state-unrecoverable error exactly
when no layer is aggregated; with exactly one layer the whole buffer resets;
with more, the layer counter decrements and every supplied reverse node
value is merged into the buffer's node set. -/
theorem C5_revertTo (b : Buffer) (db : KVStore)
    (rnodes : List ((Nat × NPath) × TrieNode))
    (raccounts : List (Nat × Blob)) (rstorages : List ((Nat × Nat) × Blob))
    (hnd : (rnodes.map Prod.fst).Nodup) :
    (b.revertTo db rnodes raccounts rstorages = .error .stateUnrecoverable ↔
      b.layers = 0) ∧
    (b.layers = 1 → b.revertTo db rnodes raccounts rstorages = .ok b.reset) ∧
    (b.layers ≠ 0 → exceptIsOk (b.revertTo db rnodes raccounts rstorages) = true) ∧
    (2 ≤ b.layers → ∀ b2, b.revertTo db rnodes raccounts rstorages = .ok b2 →
      b2.layers = b.layers - 1 ∧
      ∀ k n, alookup rnodes k = some n → b2.nodes.node k.1 k.2 = some n) := by
  by_cases h0 : b.layers = 0
  · refine ⟨by simp [Buffer.revertTo, h0], fun h1 => absurd h0 (by omega),
      fun h1 => absurd h0 h1, fun h2 => absurd h0 (by omega)⟩
  · by_cases h1 : b.layers - 1 = 0
    · have hl1 : b.layers = 1 := by omega
      refine ⟨?_, fun _ => ?_, fun _ => ?_, fun h2 => absurd hl1 (by omega)⟩ <;>
        simp [Buffer.revertTo, h0, h1, exceptIsOk]
    · refine ⟨?_, fun hl => absurd hl (by omega), fun _ => ?_, fun _ b2 hb2 => ?_⟩
      · simp [Buffer.revertTo, h0, h1]
      · simp [Buffer.revertTo, h0, h1, exceptIsOk]
      · have hb2' : ({ b with
            layers := b.layers - 1,
            nodes := b.nodes.revertTo db rnodes,
            states :=
              if b.states.accountData ≠ [] ∨ b.states.storageData ≠ [] then
                b.states.revertTo raccounts rstorages
              else b.states } : Buffer) = b2 := by
          have := hb2
          simp only [Buffer.revertTo, h0, h1, if_neg, ite_false] at this
          simpa using this
        subst hb2'
        refine ⟨rfl, fun k n hk => ?_⟩
        show alookup (rnodes.foldl (fun acc e => aput acc e.1 e.2) b.nodes.entries) (k.1, k.2) = some n
        have : (k.1, k.2) = k := rfl
        rw [this]
        exact alookup_foldl_aput_mem rnodes b.nodes.entries hnd hk

def nW5 : TrieNode := ⟨[3], 0⟩

def bufW5 : Buffer :=
  { layers := 2, limit := 1000, nodes := ⟨[]⟩, states := ⟨[], []⟩ }

def bufW5r : Buffer :=
  { layers := 1, limit := 1000, nodes := ⟨[((1, [2]), nW5)]⟩, states := ⟨[], []⟩ }

/-- Witness for C5: a two-layer buffer reverts to one merged layer. -/
theorem C5_witness :
    (Buffer.revertTo bufW5 kvW [((1, [2]), nW5)] [] [] = .error .stateUnrecoverable ↔
      bufW5.layers = 0) ∧
    bufW5r.layers = 1 ∧ NodeSet.node bufW5r.nodes 1 [2] = some nW5 := by
  have h := C5_revertTo bufW5 kvW [((1, [2]), nW5)] [] [] (by decide)
  refine ⟨h.1, ?_, ?_⟩
  · have := (h.2.2.2 (by decide) bufW5r rfl).1
    simpa using this
  · exact (h.2.2.2 (by decide) bufW5r rfl).2 (1, [2]) nW5 rfl

theorem applyBatch_cons (db : KVStore) (op : WriteOp) (ops : List WriteOp) :
    applyBatch db (op :: ops) = applyBatch (applyOp db op) ops := rfl

theorem applyBatch_append (db : KVStore) (l1 l2 : List WriteOp) :
    applyBatch db (l1 ++ l2) = applyBatch (applyBatch db l1) l2 :=
  List.foldl_append applyOp db l1 l2

theorem nodeWriteOps_cons (e : (Nat × NPath) × TrieNode)
    (t : List ((Nat × NPath) × TrieNode)) :
    nodeWriteOps (e :: t) = nodeOpFor e.1 e.2 :: nodeWriteOps t := rfl

theorem read_applyOp_psid (db : KVStore) (i : Nat) (o : Nat) (p : NPath) :
    readTrieNode (applyOp db (WriteOp.putPersistentStateID i)) o p =
      readTrieNode db o p := by
  by_cases ho : o = 0 <;>
    simp [readTrieNode, readAccountTrieNode, readStorageTrieNode, applyOp, ho]

theorem read_applyOp_self (db : KVStore) (k : Nat × NPath) (n : TrieNode) :
    readTrieNode (applyOp db (nodeOpFor k n)) k.1 k.2 = n.blob := by
  by_cases hb : n.blob = [] <;> by_cases ho : k.1 = 0 <;>
    simp [nodeOpFor, hb, ho, applyOp, readTrieNode, readAccountTrieNode,
      readStorageTrieNode, alookup_adel_self, alookup_aput_self]

theorem read_applyOp_ne (db : KVStore) {k k' : Nat × NPath} (n : TrieNode)
    (h : k' ≠ k) :
    readTrieNode (applyOp db (nodeOpFor k n)) k'.1 k'.2 =
      readTrieNode db k'.1 k'.2 := by
  obtain ⟨a, p⟩ := k
  obtain ⟨a', p'⟩ := k'
  have hpair : (a', p') ≠ (a, p) := h
  by_cases hb : n.blob = [] <;> by_cases ho : a = 0 <;> by_cases ho' : a' = 0
  · have hp : p' ≠ p := fun hp => hpair (by simp [ho, ho', hp])
    simp only [nodeOpFor, if_pos hb, if_pos ho, applyOp, readTrieNode,
      if_pos ho', readAccountTrieNode]
    rw [alookup_adel_ne _ hp]
  · simp only [nodeOpFor, if_pos hb, if_pos ho, applyOp, readTrieNode,
      if_neg ho', readStorageTrieNode]
  · simp only [nodeOpFor, if_pos hb, if_neg ho, applyOp, readTrieNode,
      if_pos ho', readAccountTrieNode]
  · simp only [nodeOpFor, if_pos hb, if_neg ho, applyOp, readTrieNode,
      if_neg ho', readStorageTrieNode]
    rw [alookup_adel_ne _ hpair]
  · have hp : p' ≠ p := fun hp => hpair (by simp [ho, ho', hp])
    simp only [nodeOpFor, if_neg hb, if_pos ho, applyOp, readTrieNode,
      if_pos ho', readAccountTrieNode]
    rw [alookup_aput_ne _ _ hp]
  · simp only [nodeOpFor, if_neg hb, if_pos ho, applyOp, readTrieNode,
      if_neg ho', readStorageTrieNode]
  · simp only [nodeOpFor, if_neg hb, if_neg ho, applyOp, readTrieNode,
      if_pos ho', readAccountTrieNode]
  · simp only [nodeOpFor, if_neg hb, if_neg ho, applyOp, readTrieNode,
      if_neg ho', readStorageTrieNode]
    rw [alookup_aput_ne _ _ hpair]

theorem read_after_nodeOps_not_mem (db : KVStore)
    (l : List ((Nat × NPath) × TrieNode)) {k : Nat × NPath}
    (h : k ∉ l.map Prod.fst) :
    readTrieNode (applyBatch db (nodeWriteOps l)) k.1 k.2 =
      readTrieNode db k.1 k.2 := by
  induction l generalizing db with
  | nil => rfl
  | cons e t ih =>
    simp only [List.map_cons, List.mem_cons] at h
    push_neg at h
    rw [nodeWriteOps_cons, applyBatch_cons, ih (applyOp db (nodeOpFor e.1 e.2)) h.2]
    exact read_applyOp_ne db e.2 h.1

theorem read_after_nodeOps_mem (l : List ((Nat × NPath) × TrieNode))
    (db : KVStore) {k : Nat × NPath} {n : TrieNode}
    (hnd : (l.map Prod.fst).Nodup) (h : alookup l k = some n) :
    readTrieNode (applyBatch db (nodeWriteOps l)) k.1 k.2 = n.blob := by
  induction l generalizing db with
  | nil => simp [alookup] at h
  | cons e t ih =>
    obtain ⟨k0, n0⟩ := e
    simp only [List.map_cons, List.nodup_cons] at hnd
    by_cases hk : k0 = k
    · subst hk
      have hv : n0 = n := by simpa [alookup] using h
      subst hv
      rw [nodeWriteOps_cons, applyBatch_cons,
        read_after_nodeOps_not_mem (applyOp db (nodeOpFor k0 n0)) t hnd.1]
      exact read_applyOp_self db k0 n0
    · rw [alookup, if_neg hk] at h
      rw [nodeWriteOps_cons, applyBatch_cons]
      exact ih (applyOp db (nodeOpFor (k0, n0).1 (k0, n0).2)) hnd.2 h

/-- C3: when `buffer.flush` proceeds (forced or full) and succeeds, the
persistent state id stored in the key-value store equals the requested id,
every node delta the buffer held is readable back from the store, the whole
mutation is one atomically applied batch, and the buffer is reset to
empty. -/
theorem C3_flush_persists (b : Buffer) (db : KVStore) (cache : Option Cache)
    (id : Nat) (force : Bool) (hgo : force = true ∨ b.full = true)
    (hnd : (b.nodes.entries.map Prod.fst).Nodup)
    (b2 : Buffer) (db2 : KVStore) (cache2 : Option Cache)
    (hok : b.flush db cache id force = .ok (b2, db2, cache2)) :
    db2.persistentStateID = id ∧ b2.layers = 0 ∧
    db2 = applyBatch db
      (nodeWriteOps b.nodes.entries ++ [WriteOp.putPersistentStateID id]) ∧
    ∀ k n, alookup b.nodes.entries k = some n →
      readTrieNode db2 k.1 k.2 = n.blob := by
  have hcond : ¬(b.full = false ∧ force = false) := by
    rcases hgo with h | h <;> simp [h]
  rw [Buffer.flush, if_neg hcond] at hok
  by_cases ha : db.persistentStateID + b.layers ≠ id
  · rw [if_pos ha] at hok
    exact absurd hok (by simp)
  · rw [if_neg ha] at hok
    simp only [Except.ok.injEq, Prod.mk.injEq] at hok
    obtain ⟨hb2, hdb2, hcache2⟩ := hok
    subst hb2
    subst hdb2
    refine ⟨?_, rfl, rfl, ?_⟩
    · rw [applyBatch_append]
      rfl
    · intro k n hk
      rw [applyBatch_append]
      show readTrieNode (applyOp (applyBatch db (nodeWriteOps b.nodes.entries))
        (WriteOp.putPersistentStateID id)) k.1 k.2 = n.blob
      rw [read_applyOp_psid]
      exact read_after_nodeOps_mem b.nodes.entries db hnd hk

def nW3 : TrieNode := ⟨[9], 0⟩

def bufW3 : Buffer :=
  { layers := 1, limit := 1000, nodes := ⟨[((0, [1]), nW3)]⟩, states := ⟨[], []⟩ }

def kvW3 : KVStore :=
  applyBatch kvW (nodeWriteOps bufW3.nodes.entries ++ [WriteOp.putPersistentStateID 1])

/-- Witness for C3: a forced flush of a one-node buffer lands the node and
the state id in the store and resets the buffer. -/
theorem C3_witness :
    kvW3.persistentStateID = 1 ∧ (Buffer.reset bufW3).layers = 0 ∧
      readTrieNode kvW3 0 [1] = [9] := by
  have h := C3_flush_persists bufW3 kvW none 1 true (Or.inl rfl) (by decide)
      (Buffer.reset bufW3) kvW3 (nodeCacheWrite none bufW3.nodes.entries) rfl
  exact ⟨h.1, h.2.1, h.2.2.2 (0, [1]) nW3 rfl⟩

theorem revertTo_error_shape (b : Buffer) (db : KVStore)
    (rnodes : List ((Nat × NPath) × TrieNode))
    (raccounts : List (Nat × Blob)) (rstorages : List ((Nat × Nat) × Blob))
    (e : DBErr) (h : b.revertTo db rnodes raccounts rstorages = .error e) :
    e = .stateUnrecoverable := by
  by_cases h0 : b.layers = 0
  · rw [Buffer.revertTo, if_pos h0] at h
    exact (Except.error.injEq _ _ ▸ h).symm
  · by_cases h1 : b.layers - 1 = 0
    · rw [Buffer.revertTo, if_neg h0, if_pos h1] at h
      exact absurd h (by simp)
    · rw [Buffer.revertTo, if_neg h0, if_neg h1] at h
      exact absurd h (by simp)

theorem psid_after_psid_batch (db : KVStore) (ops : List WriteOp) (i : Nat) :
    (applyBatch db (ops ++ [WriteOp.putPersistentStateID i])).persistentStateID = i := by
  rw [applyBatch_append]
  rfl

/-- C6: `diskLayer.revert` fails with the unexpected-history error exactly
when the history root differs from the layer root; with a matching root it
refuses state id zero with the state-unrecoverable error; and on success it
returns a layer at `(history.parent, id - 1)`, undoing through
`buffer.revertTo` when the buffer is non-empty and otherwise writing the
forward changes directly and decrementing the persistent state id. -/
theorem C6_revert (dl : DiskLayer) (db : Database) (h : History) :
    (dl.revert db h = .error .unexpectedHistory ↔ h.root ≠ dl.root) ∧
    (h.root = dl.root → dl.id = 0 →
      dl.revert db h = .error .stateUnrecoverable) ∧
    (∀ ndl kv2, dl.revert db h = .ok (ndl, kv2) →
      ndl.root = h.parent ∧ ndl.id = dl.id - 1 ∧
      (dl.buffer.empty = false →
        dl.buffer.revertTo db.diskdb (applyHistory db h) h.accounts h.storages =
          .ok ndl.buffer ∧ kv2 = db.diskdb) ∧
      (dl.buffer.empty = true →
        kv2.persistentStateID = dl.id - 1 ∧ ndl.buffer = dl.buffer)) := by
  by_cases hr : h.root = dl.root
  · have hr' : ¬(h.root ≠ dl.root) := fun hc => hc hr
    by_cases hid : dl.id = 0
    · rw [DiskLayer.revert, if_neg hr', if_pos hid]
      refine ⟨by simp [hr'], fun _ _ => rfl, fun ndl kv2 hok => absurd hok (by simp)⟩
    · rw [DiskLayer.revert, if_neg hr', if_neg hid]
      by_cases hbe : dl.buffer.empty = false
      · rw [if_pos hbe]
        rcases hrt : dl.buffer.revertTo db.diskdb (applyHistory db h) h.accounts h.storages with
          e | buf2
        · refine ⟨?_, fun _ hc => absurd hc hid, fun ndl kv2 hok => absurd hok (by simp)⟩
          have he := revertTo_error_shape _ _ _ _ _ _ hrt
          subst he
          simp [hr']
        · refine ⟨by simp [hr'], fun _ hc => absurd hc hid, fun ndl kv2 hok => ?_⟩
          simp only [Except.ok.injEq, Prod.mk.injEq] at hok
          obtain ⟨hndl, hkv⟩ := hok
          subst hndl
          subst hkv
          refine ⟨by simp [newDiskLayer], by simp [newDiskLayer], fun _ => ?_, fun hc => ?_⟩
          · refine ⟨?_, rfl⟩
            simp [newDiskLayer]
          · rw [hc] at hbe
            exact absurd hbe (by simp)
      · have hbe' : dl.buffer.empty = true := by
          cases hx : dl.buffer.empty
          · exact absurd hx hbe
          · rfl
        rw [if_neg (by simp [hbe'] : ¬dl.buffer.empty = false)]
        refine ⟨by simp [hr'], fun _ hc => absurd hc hid, fun ndl kv2 hok => ?_⟩
        simp only [Except.ok.injEq, Prod.mk.injEq] at hok
        obtain ⟨hndl, hkv⟩ := hok
        subst hndl
        subst hkv
        refine ⟨by simp [newDiskLayer], by simp [newDiskLayer], fun hc => ?_, fun _ => ?_⟩
        · rw [hc] at hbe'
          exact absurd hbe' (by simp)
        · exact ⟨psid_after_psid_batch db.diskdb _ (dl.id - 1), by simp [newDiskLayer]⟩
  · have hr' : h.root ≠ dl.root := hr
    rw [DiskLayer.revert, if_pos hr']
    exact ⟨by simp [hr'], fun hc _ => absurd hc hr, fun ndl kv2 hok => absurd hok (by simp)⟩

def histW6 : History :=
  { parent := 0, root := 1, accounts := [], storages := [],
    nodes := [((0, [4]), ⟨[8], 0⟩)] }

def dlW6 : DiskLayer :=
  { root := 1, id := 1, stale := false, cnodes := none, buffer := bufW }

def dbW6 : Database :=
  { diskdb := kvW, hasFreezer := false, freezerTail := 0,
    stateHistoryLimit := 0, cleanCacheSize := 0 }

def ndlW6 : DiskLayer :=
  { root := 0, id := 0, stale := false, cnodes := none, buffer := bufW }

def kvW6 : KVStore :=
  applyBatch kvW (nodeWriteOps histW6.nodes ++ [WriteOp.putPersistentStateID 0])

/-- Witness for C6: an empty-buffer revert lands at `(parent, id - 1)` and
decrements the persistent state id. -/
theorem C6_witness :
    ndlW6.root = histW6.parent ∧ ndlW6.id = dlW6.id - 1 ∧
      kvW6.persistentStateID = 0 := by
  have h := (C6_revert dlW6 dbW6 histW6).2.2 ndlW6 kvW6 rfl
  exact ⟨h.1, h.2.1, (h.2.2.2 rfl).1⟩

def bufC2 : Buffer := { layers := 0, limit := 1000, nodes := ⟨[]⟩, states := ⟨[], []⟩ }

def dlC2 : DiskLayer :=
  { root := 1, id := 1, stale := true, cnodes := none, buffer := bufC2 }

def dbC2 : Database :=
  { diskdb := kvW, hasFreezer := false, freezerTail := 0,
    stateHistoryLimit := 0, cleanCacheSize := 0 }

def bottomC2 : DiffLayer :=
  { root := 2, stateID := 2, block := 1, nodes := ⟨[]⟩, states := ⟨[], []⟩ }

/-- C2 counterexample: the claim says a commit onto an already-stale disk
layer panics, but `diskLayer.commit` sets `dl.stale = true` with no
already-stale check, so committing onto a stale base completes without a
panic (the panicking check lives only in `markStale`, which `commit` never
calls). -/
theorem C2_counterexample :
    dlC2.stale = true ∧
      Outcome.isPanicked (DiskLayer.commit dlC2 dbC2 bottomC2 false).2 = false :=
  ⟨rfl, rfl⟩

/-- C2 (amended): every `diskLayer.commit` marks the receiver stale before
merging the bottom diff on top and never panics — even when the receiver is
already stale; the already-stale panic is implemented in `markStale`, which
`commit` does not invoke. A successful commit yields the successor layer at
the bottom diff's `(root, stateID)`. -/
theorem C2_commit_marks_stale (dl : DiskLayer) (db : Database)
    (bottom : DiffLayer) (force : Bool) :
    (DiskLayer.commit dl db bottom force).1.stale = true ∧
    Outcome.isPanicked (DiskLayer.commit dl db bottom force).2 = false ∧
    (∀ ndl db2, (DiskLayer.commit dl db bottom force).2 = .ok (ndl, db2) →
      ndl.root = bottom.root ∧ ndl.id = bottom.stateID) ∧
    (dl.stale = true → DiskLayer.markStale dl = .panicked) := by
  refine ⟨rfl, ?_, ?_, fun hst => by simp [DiskLayer.markStale, hst]⟩
  · show Outcome.isPanicked (DiskLayer.commitTail dl db bottom force) = false
    rw [DiskLayer.commitTail]
    rcases hf : Buffer.flush (dl.buffer.commit bottom.nodes bottom.states)
        (writeStateID (if dl.id = 0 then writeStateID db.diskdb dl.root 0 else db.diskdb)
          bottom.root bottom.stateID)
        dl.cnodes bottom.stateID
        (if force = false ∧
            (writeStateID (if dl.id = 0 then writeStateID db.diskdb dl.root 0 else db.diskdb)
              bottom.root bottom.stateID).persistentStateID <
              (if db.hasFreezer = true ∧ db.stateHistoryLimit ≠ 0 ∧
                  db.stateHistoryLimit < bottom.stateID - db.freezerTail then
                some (bottom.stateID - db.stateHistoryLimit + 1)
              else none).getD 0 then true
        else force) with e | v
    · simp [hf, Outcome.isPanicked]
    · obtain ⟨buf2, kv3, cache2⟩ := v
      simp [hf, Outcome.isPanicked]
  · intro ndl db2 hok
    replace hok : DiskLayer.commitTail dl db bottom force = .ok (ndl, db2) := hok
    rw [DiskLayer.commitTail] at hok
    rcases hf : Buffer.flush (dl.buffer.commit bottom.nodes bottom.states)
        (writeStateID (if dl.id = 0 then writeStateID db.diskdb dl.root 0 else db.diskdb)
          bottom.root bottom.stateID)
        dl.cnodes bottom.stateID
        (if force = false ∧
            (writeStateID (if dl.id = 0 then writeStateID db.diskdb dl.root 0 else db.diskdb)
              bottom.root bottom.stateID).persistentStateID <
              (if db.hasFreezer = true ∧ db.stateHistoryLimit ≠ 0 ∧
                  db.stateHistoryLimit < bottom.stateID - db.freezerTail then
                some (bottom.stateID - db.stateHistoryLimit + 1)
              else none).getD 0 then true
        else force) with e | v
    · rw [hf] at hok
      exact absurd hok (by simp)
    · obtain ⟨buf2, kv3, cache2⟩ := v
      rw [hf] at hok
      simp only [Outcome.ok.injEq, Prod.mk.injEq] at hok
      obtain ⟨hndl, _⟩ := hok
      subst hndl
      exact ⟨by simp [newDiskLayer], by simp [newDiskLayer]⟩

def dlW2 : DiskLayer :=
  { root := 1, id := 1, stale := false, cnodes := none, buffer := bufC2 }

def combinedW2 : Buffer :=
  { layers := 1, limit := 1000, nodes := ⟨[]⟩, states := ⟨[], []⟩ }

def ndlW2 : DiskLayer :=
  { root := 2, id := 2, stale := false, cnodes := none, buffer := combinedW2 }

def dbW2r : Database :=
  { diskdb := { kvW with stateIDs := [(2, 2)] }, hasFreezer := false,
    freezerTail := 0, stateHistoryLimit := 0, cleanCacheSize := 0 }

/-- Witness for the amended C2: a concrete commit marks the old layer stale,
produces the successor at the bottom's root and id, and the already-stale
panic indeed lives in `markStale`. -/
theorem C2_witness :
    (DiskLayer.commit dlW2 dbC2 bottomC2 false).1.stale = true ∧
      ndlW2.root = bottomC2.root ∧ ndlW2.id = bottomC2.stateID ∧
      DiskLayer.markStale dlC2 = .panicked := by
  refine ⟨(C2_commit_marks_stale dlW2 dbC2 bottomC2 false).1, ?_, ?_, ?_⟩
  · exact ((C2_commit_marks_stale dlW2 dbC2 bottomC2 false).2.2.1 ndlW2 dbW2r rfl).1
  · exact ((C2_commit_marks_stale dlW2 dbC2 bottomC2 false).2.2.1 ndlW2 dbW2r rfl).2
  · exact (C2_commit_marks_stale dlC2 dbC2 bottomC2 false).2.2.2 rfl

def sfC8 : Subfetcher :=
  { owner := 0, root := 0, addr := 0, tasks := [], seen := [], dups := 0,
    usedKeys := [], pendingSize := 0 }

/-- C8 counterexample: `triePrefetcher.used` records keys unconditionally,
so marking a key the subfetcher never loaded puts it into `used` while it is
absent from `seen` — the claimed `used ⊆ seen` invariant is not maintained
by the code. -/
theorem C8_counterexample :
    [1, 2] ∈ (recordUsed sfC8 [[1, 2]] []).usedKeys ∧
      [1, 2] ∉ (recordUsed sfC8 [[1, 2]] []).seen := by
  constructor
  · show [1, 2] ∈ sfC8.usedKeys ++ [[1, 2]] ++ []
    simp
  · show [1, 2] ∉ sfC8.seen
    simp [sfC8]

/-- C8 (amended): scheduling a key the subfetcher has already loaded only
increments `dups` — no backend read is issued and `seen` is unchanged;
`used`, however, is appended verbatim with the supplied keys and is not
filtered against `seen`, so `used ⊆ seen` holds only when the consumer
marks previously loaded keys. -/
theorem C8_dedup_and_used (sf : Subfetcher) (task : List Nat)
    (usedAddr usedSlot : List (List Nat)) (hseen : task ∈ sf.seen) :
    processTask sf task =
      ({ sf with dups := sf.dups + 1, pendingSize := sf.pendingSize - 1 }, []) ∧
    (recordUsed sf usedAddr usedSlot).usedKeys =
      sf.usedKeys ++ usedAddr ++ usedSlot ∧
    (recordUsed sf usedAddr usedSlot).seen = sf.seen := by
  refine ⟨?_, rfl, rfl⟩
  simp [processTask, hseen]

def sfW8 : Subfetcher :=
  { owner := 0, root := 0, addr := 0, tasks := [], seen := [[3]], dups := 0,
    usedKeys := [], pendingSize := 1 }

/-- Witness for the amended C8: re-scheduling a loaded key at a concrete
subfetcher bumps `dups` and issues no backend read. -/
theorem C8_witness :
    processTask sfW8 [3] =
      ({ owner := 0, root := 0, addr := 0, tasks := [], seen := [[3]], dups := 1,
         usedKeys := [], pendingSize := 0 }, []) :=
  (C8_dedup_and_used sfW8 [3] [] [] (by simp [sfW8])).1

theorem chunkSpawnFuel_bound (sf : Subfetcher) :
    ∀ fuel keys,
      (chunkSpawnFuel sf fuel keys).length * parallelTriePrefetchCapacity <
        keys.length + parallelTriePrefetchCapacity := by
  intro fuel
  induction fuel with
  | zero =>
    intro keys
    simp [chunkSpawnFuel, parallelTriePrefetchCapacity]
  | succ n ih =>
    intro keys
    rw [chunkSpawnFuel]
    by_cases h0 : keys = []
    · rw [if_pos h0]
      simp [parallelTriePrefetchCapacity]
    · rw [if_neg h0]
      by_cases h1 : keys.length ≤ parallelTriePrefetchCapacity
      · rw [if_pos h1]
        have hpos : 0 < keys.length := List.length_pos.mpr h0
        simp only [List.length_singleton, parallelTriePrefetchCapacity]
        omega
      · rw [if_neg h1]
        have hrec := ih (keys.drop parallelTriePrefetchCapacity)
        simp only [List.length_cons, List.length_drop,
          parallelTriePrefetchCapacity] at *
        omega

theorem chunkSpawnFuel_children (sf : Subfetcher) :
    ∀ fuel keys, ∀ c ∈ chunkSpawnFuel sf fuel keys,
      c.owner = sf.owner ∧ c.root = sf.root ∧
        c.pendingSize ≤ parallelTriePrefetchCapacity := by
  intro fuel
  induction fuel with
  | zero =>
    intro keys c hc
    simp [chunkSpawnFuel] at hc
  | succ n ih =>
    intro keys c hc
    rw [chunkSpawnFuel] at hc
    by_cases h0 : keys = []
    · rw [if_pos h0] at hc
      simp at hc
    · rw [if_neg h0] at hc
      by_cases h1 : keys.length ≤ parallelTriePrefetchCapacity
      · rw [if_pos h1] at hc
        simp only [List.mem_singleton] at hc
        subst hc
        exact ⟨rfl, rfl, by simpa [subSchedule, newChildFetcher] using h1⟩
      · rw [if_neg h1] at hc
        rcases List.mem_cons.mp hc with hc | hc
        · subst hc
          refine ⟨rfl, rfl, ?_⟩
          simp only [subSchedule, newChildFetcher, List.length_take,
            parallelTriePrefetchCapacity]
          omega
        · exact ih _ c hc

theorem feedLoop_length (keys : List (List Nat)) :
    ∀ i children cI kI,
      ((feedLoop keys i children cI kI).1).length = children.length := by
  intro i
  induction i with
  | zero => intro children cI kI; rfl
  | succ n ih =>
    intro children cI kI
    rcases hg : children[cI]? with _ | c
    · rw [feedLoop]
      simp [List.get?_eq_getElem?, hg]
    · rw [feedLoop]
      simp only [List.get?_eq_getElem?, hg]
      by_cases hp : parallelTriePrefetchCapacity ≤ c.pendingSize
      · rw [if_pos hp]
        exact ih children _ kI
      · rw [if_neg hp]
        by_cases hk : keys.length ≤ kI + (parallelTriePrefetchCapacity - c.pendingSize)
        · rw [if_pos hk]
          simp [List.length_set]
        · rw [if_neg hk]
          rw [ih]
          simp [List.length_set]


theorem feedLoop_mem (keys : List (List Nat)) :
    ∀ i children cI kI, ∀ c2 ∈ (feedLoop keys i children cI kI).1,
      c2 ∈ children ∨ c2.pendingSize ≤ parallelTriePrefetchCapacity := by
  intro i
  induction i with
  | zero => intro children cI kI c2 hc; exact Or.inl hc
  | succ n ih =>
    intro children cI kI c2 hc
    rcases hg : children[cI]? with _ | c
    · rw [feedLoop] at hc
      simp only [List.get?_eq_getElem?, hg] at hc
      exact Or.inl hc
    · rw [feedLoop] at hc
      simp only [List.get?_eq_getElem?, hg] at hc
      by_cases hp : parallelTriePrefetchCapacity ≤ c.pendingSize
      · rw [if_pos hp] at hc
        exact ih children _ kI c2 hc
      · rw [if_neg hp] at hc
        by_cases hk : keys.length ≤ kI + (parallelTriePrefetchCapacity - c.pendingSize)
        · rw [if_pos hk] at hc
          rcases List.mem_or_eq_of_mem_set hc with h | h
          · exact Or.inl h
          · right
            subst h
            simp only [subSchedule, List.length_drop]
            simp only [parallelTriePrefetchCapacity] at *
            omega
        · rw [if_neg hk] at hc
          rcases ih _ _ _ c2 hc with h | h
          · rcases List.mem_or_eq_of_mem_set h with h2 | h2
            · exact Or.inl h2
            · right
              subst h2
              simp only [subSchedule, List.length_take, List.length_drop]
              simp only [parallelTriePrefetchCapacity] at *
              omega
          · exact Or.inr h

theorem le_ceilDiv_of_mul_lt {m a b : Nat}
    (h : m * parallelTriePrefetchCapacity < a + parallelTriePrefetchCapacity)
    (hab : a ≤ b) : m ≤ ceilDiv b parallelTriePrefetchCapacity := by
  simp only [ceilDiv, parallelTriePrefetchCapacity] at *
  rw [Nat.le_div_iff_mul_le (by omega : 0 < 20)]
  omega

theorem scheduleParallel_props (sf : Subfetcher) (children : List Subfetcher)
    (keys : List (List Nat)) :
    (scheduleParallel sf children keys).length ≤
      children.length + ceilDiv keys.length parallelTriePrefetchCapacity ∧
    (∀ c ∈ (scheduleParallel sf children keys).drop children.length,
      c.owner = sf.owner ∧ c.root = sf.root ∧
        c.pendingSize ≤ parallelTriePrefetchCapacity) ∧
    (∀ c ∈ scheduleParallel sf children keys,
      c ∈ children ∨ c.pendingSize ≤ parallelTriePrefetchCapacity) := by
  by_cases hn : 0 < children.length
  · rcases hfl : feedLoop keys children.length children
        (keys.length % children.length) 0 with ⟨children2, kI, done⟩
    have hlen : children2.length = children.length := by
      have h := feedLoop_length keys children.length children
        (keys.length % children.length) 0
      rw [hfl] at h
      exact h
    have hmem : ∀ c2 ∈ children2,
        c2 ∈ children ∨ c2.pendingSize ≤ parallelTriePrefetchCapacity := by
      intro c2 hc2
      have h := feedLoop_mem keys children.length children
        (keys.length % children.length) 0 c2
      rw [hfl] at h
      exact h hc2
    have hsp : scheduleParallel sf children keys =
        if done = true then children2
        else children2 ++ chunkSpawn sf (keys.drop kI) := by
      rw [scheduleParallel, if_pos hn, hfl]
    cases done
    · simp only [Bool.false_eq_true, if_false] at hsp
      rw [hsp]
      refine ⟨?_, ?_, ?_⟩
      · simp only [List.length_append, hlen]
        have hb := chunkSpawnFuel_bound sf (keys.drop kI).length (keys.drop kI)
        have hc : (chunkSpawn sf (keys.drop kI)).length ≤
            ceilDiv keys.length parallelTriePrefetchCapacity := by
          refine le_ceilDiv_of_mul_lt ?_ (le_refl keys.length)
          rw [chunkSpawn]
          calc (chunkSpawnFuel sf (keys.drop kI).length (keys.drop kI)).length *
                parallelTriePrefetchCapacity
              < (keys.drop kI).length + parallelTriePrefetchCapacity := hb
            _ ≤ keys.length + parallelTriePrefetchCapacity := by
                simp only [List.length_drop]
                omega
        omega
      · intro c hc
        rw [← hlen, List.drop_left] at hc
        rw [chunkSpawn] at hc
        exact chunkSpawnFuel_children sf _ _ c hc
      · intro c hc
        rcases List.mem_append.mp hc with h | h
        · exact hmem c h
        · rw [chunkSpawn] at h
          exact Or.inr (chunkSpawnFuel_children sf _ _ c h).2.2
    · simp only [if_true] at hsp
      rw [hsp]
      refine ⟨?_, ?_, ?_⟩
      · omega
      · intro c hc
        rw [List.drop_eq_nil_of_le (by omega)] at hc
        simp at hc
      · exact hmem
  · rw [scheduleParallel, if_neg hn]
    have hempty : children = [] := List.length_eq_zero.mp (by omega)
    subst hempty
    refine ⟨?_, ?_, ?_⟩
    · simp only [List.nil_append, List.length_nil, Nat.zero_add]
      rw [chunkSpawn]
      exact le_ceilDiv_of_mul_lt (chunkSpawnFuel_bound sf keys.length keys)
        (le_refl keys.length)
    · intro c hc
      simp only [List.nil_append, List.drop_zero] at hc
      rw [chunkSpawn] at hc
      exact chunkSpawnFuel_children sf _ _ c hc
    · intro c hc
      simp only [List.nil_append] at hc
      rw [chunkSpawn] at hc
      exact Or.inr (chunkSpawnFuel_children sf _ _ c hc).2.2

/-- C9: when a scheduled message pushes a subfetcher's pending counter past
the parallel threshold, the scheduler spawns at most
`⌈pending / capacity⌉` new child subfetchers, every spawned child carries
the parent's trie identity `(owner, root)`, and every child fed in this
round (existing or spawned) ends with at most `parallelTriePrefetchCapacity`
pending keys; below the threshold the children are untouched, so the bounds
hold for every message. -/
theorem C9_parallel_spawn (sf : Subfetcher) (children : List Subfetcher)
    (keys : List (List Nat)) :
    ((handleMsg sf children keys).2).length ≤
      children.length +
        ceilDiv ((handleMsg sf children keys).1).pendingSize
          parallelTriePrefetchCapacity ∧
    (∀ c ∈ ((handleMsg sf children keys).2).drop children.length,
      c.owner = sf.owner ∧ c.root = sf.root ∧
        c.pendingSize ≤ parallelTriePrefetchCapacity) ∧
    (∀ c ∈ (handleMsg sf children keys).2,
      c ∈ children ∨ c.pendingSize ≤ parallelTriePrefetchCapacity) := by
  by_cases ht : parallelTriePrefetchThreshold < (subSchedule sf keys).pendingSize
  · have hm : handleMsg sf children keys =
        (subSchedule sf keys, scheduleParallel (subSchedule sf keys) children keys) := by
      rw [handleMsg, if_pos ht]
    rw [hm]
    dsimp only
    have hp := scheduleParallel_props (subSchedule sf keys) children keys
    refine ⟨?_, fun c hc => hp.2.1 c hc, hp.2.2⟩
    have hmono : ceilDiv keys.length parallelTriePrefetchCapacity ≤
        ceilDiv (subSchedule sf keys).pendingSize parallelTriePrefetchCapacity := by
      simp only [ceilDiv, subSchedule]
      exact Nat.div_le_div_right (by omega)
    have h1 := hp.1
    omega
  · have hm : handleMsg sf children keys = (subSchedule sf keys, children) := by
      rw [handleMsg, if_neg ht]
    rw [hm]
    dsimp only
    refine ⟨Nat.le_add_right _ _, ?_, fun c hc => Or.inl hc⟩
    intro c hc
    rw [List.drop_length] at hc
    simp at hc

def sfW9 : Subfetcher :=
  { owner := 7, root := 8, addr := 9, tasks := [], seen := [], dups := 0,
    usedKeys := [], pendingSize := 0 }

def keysW9 : List (List Nat) := (List.range 25).map (fun i => [i])

def childW9 : Subfetcher :=
  { owner := 7, root := 8, addr := 9, tasks := keysW9.take 20, seen := [],
    dups := 0, usedKeys := [], pendingSize := 20 }

/-- Witness for C9: scheduling 25 keys on a fresh fetcher spawns a first
child with the parent's trie identity and exactly the capacity of pending
keys. -/
theorem C9_witness :
    childW9.owner = sfW9.owner ∧ childW9.root = sfW9.root ∧
      childW9.pendingSize ≤ parallelTriePrefetchCapacity :=
  (C9_parallel_spawn sfW9 [] keysW9).2.1 childW9 (by decide)
